import Mathlib

/-!
Verification of the `epp` terminal text editor (src/epp.cpp).

The editor state (`struct Editor`) and its operations are embedded shallowly:
`std::vector<std::string> lines` becomes `List (List Char)`, the C++ `int`
fields become `Int`, and each member function becomes a Lean function on the
state.  Container accesses (`lines[line]`, `std::string::insert/erase`,
`std::vector::insert/erase`) are modelled with `List` operations that agree
with the C++ ones whenever the index is in range; a separate checked embedding
(`inputChecked`) returns `none` exactly when a C++ access would be out of
range, and is proved to agree with the total embedding on states satisfying
the data-model invariants.
-/

namespace Epp

/-- The editor state: `struct Editor` of src/epp.cpp (the `output` path field
is irrelevant to buffer behaviour and omitted; file contents are passed to
`load`/`save` explicitly). -/
structure Editor where
  lines : List (List Char)
  line : Int
  column : Int
  line_offset : Int
  running : Bool
deriving Repr, DecidableEq

/-- The initial editor: `lines = {""}`, all cursors 0, running. -/
def initEditor : Editor :=
  { lines := [[]], line := 0, column := 0, line_offset := 0, running := true }

/-- Replace line `i` of `ls` by `f` applied to it; models in-place mutation of
`lines[i]` (out-of-range `i` leaves the list unchanged, matching no C++
counterpart — the checked embedding guards those accesses). -/
def updateLine (ls : List (List Char)) (i : Nat) (f : List Char → List Char) :
    List (List Char) :=
  ls.set i (f (ls.getD i []))

/-- `Editor::new_line`: `column = 0; lines.insert(lines.begin() + line, "")`. -/
def new_line (e : Editor) : Editor :=
  { e with column := 0, lines := e.lines.insertIdx e.line.toNat [] }

/-- `Editor::delete_line`. -/
def delete_line (e : Editor) : Editor :=
  if e.lines.length = 1 then e
  else
    let lines' := e.lines.eraseIdx e.line.toNat
    let line' := if e.line ≥ (lines'.length : Int) then e.line - 1 else e.line
    { e with lines := lines', column := 0, line := line' }

/-- `Editor::backspace`: if `column == 0` return; else `--column;
lines[line].erase(column, 1)`. -/
def backspace (e : Editor) : Editor :=
  if e.column = 0 then e
  else
    { e with
      column := e.column - 1,
      lines := updateLine e.lines e.line.toNat
        (fun l => l.take (e.column - 1).toNat ++ l.drop ((e.column - 1).toNat + 1)) }

/-- `Editor::insert(c, count)`: `lines[line].insert(column, count, c);
column += count`. -/
def insert (e : Editor) (c : Char) (count : Nat) : Editor :=
  { e with
    lines := updateLine e.lines e.line.toNat
      (fun l => l.take e.column.toNat ++ List.replicate count c ++ l.drop e.column.toNat),
    column := e.column + (count : Int) }

/-- One `std::getline` loop over a character stream: each call consumes up to
and including the next `'\n'` (or to end of input) and yields the consumed
characters without the `'\n'`; the loop stops when the stream is exhausted. -/
def getlines (s : List Char) : List (List Char) :=
  if h : s = [] then []
  else
    (s.takeWhile (· ≠ '\n')) :: getlines ((s.dropWhile (· ≠ '\n')).drop 1)
termination_by s.length
decreasing_by
  have h1 : (s.takeWhile (· ≠ '\n')).length + (s.dropWhile (· ≠ '\n')).length
      = s.length := by
    rw [← List.length_append, List.takeWhile_append_dropWhile]
  have h2 : 0 < s.length := List.length_pos.mpr h
  have h3 : ((s.dropWhile (· ≠ '\n')).drop 1).length =
      (s.dropWhile (· ≠ '\n')).length - 1 := by simp
  omega

/-- `Editor::load`: `lines.clear()` then one `push_back` per `std::getline`
from the file.  The file contents are passed explicitly as a character list. -/
def load (e : Editor) (contents : List Char) : Editor :=
  { e with lines := getlines contents }

/-- `Editor::save` writes each line followed by `"\n"`
(`std::ostream_iterator<std::string>(f, "\n")`); this is the byte stream it
produces. -/
def serializeLines : List (List Char) → List Char
  | [] => []
  | l :: ls => l ++ '\n' :: serializeLines ls

/-- The command letters dispatched to `Editor::move`
(the string `"BFNPAECVQ"` in `Editor::input`). -/
def moveChars : List Char := ['B', 'F', 'N', 'P', 'A', 'E', 'C', 'V', 'Q']

/-- Length of line `i` as the C++ `static_cast<int>(lines[line].size())`. -/
def lineLen (e : Editor) (i : Int) : Int :=
  ((e.lines.getD i.toNat []).length : Int)

/-- `Editor::move`. -/
def move (e : Editor) (c : Char) : Editor :=
  if c = 'B' then { e with column := max 0 (e.column - 1) }
  else if c = 'F' then { e with column := min (lineLen e e.line) (e.column + 1) }
  else if c = 'N' then
    let line' := min ((e.lines.length : Int) - 1) (e.line + 1)
    { e with line := line', column := min (lineLen e line') e.column }
  else if c = 'P' then
    let line' := max 0 (e.line - 1)
    { e with line := line', column := min (lineLen e line') e.column }
  else if c = 'A' then { e with column := 0 }
  else if c = 'E' then { e with column := lineLen e e.line }
  else if c = 'V' then
    let line' := min ((e.lines.length : Int) - 1) (e.line + 10)
    { e with line := line', column := min (lineLen e line') e.column }
  else if c = 'C' then
    let line' := max 0 (e.line - 10)
    { e with line := line', column := min (lineLen e line') e.column }
  else if c = 'Q' then { e with running := false }
  else e

/-- `Editor::input`: dispatch on the input byte.  `'S'` (save) performs no
state change. -/
def input (e : Editor) (c : Char) : Editor :=
  if c = '\n' then new_line { e with line := e.line + 1 }
  else if c = 'O' then new_line e
  else if c = Char.ofNat 8 ∨ c = Char.ofNat 127 then backspace e
  else if c = '\t' then insert e ' ' 4
  else if c = 'K' then delete_line e
  else if c = 'S' then e
  else if c ∈ moveChars then move e c
  else insert e c 1

/-- `Editor::adjust_offset(height)`. -/
def adjust_offset (e : Editor) (height : Int) : Editor :=
  if e.line + 1 - e.line_offset > height then
    { e with line_offset := e.line + 1 - height }
  else if e.line - e.line_offset < 0 then
    { e with line_offset := e.line }
  else e

/-- The value `Editor::adjust_offset` returns to its caller: the function is
declared `auto adjust_offset(int) -> void`, so its return carries no
information. -/
def adjust_offset_ret (_ : Editor) (_ : Int) : Unit := ()

/-- The data-model invariants of the spec (§3): at least one line,
`0 ≤ cursor_line < lines.length`, `0 ≤ cursor_column ≤ lines[cursor_line].length`. -/
def Inv (e : Editor) : Prop :=
  0 < e.lines.length ∧ 0 ≤ e.line ∧ e.line < (e.lines.length : Int) ∧
    0 ≤ e.column ∧ e.column ≤ lineLen e e.line

instance (e : Editor) : Decidable (Inv e) := by
  unfold Inv; infer_instance

/-- Apply a sequence of input bytes left to right (the main loop). -/
def applyInputs (e : Editor) (cs : List Char) : Editor :=
  cs.foldl input e

/-- The full data-model invariants of spec §3, adding the viewport bounds
`0 ≤ viewport_offset ≤ cursor_line` to `Inv`. -/
def FullInv (e : Editor) : Prop :=
  Inv e ∧ 0 ≤ e.line_offset ∧ e.line_offset ≤ e.line

instance (e : Editor) : Decidable (FullInv e) := by
  unfold FullInv; infer_instance

/-- A byte that reaches the plain-insertion default branch of `Editor::input`:
not newline, open-line, backspace (0x08/0x7F), tab, line-kill, save, or a
movement letter. -/
def plainInputChar (c : Char) : Prop :=
  c ≠ '\n' ∧ c ≠ 'O' ∧ c ≠ Char.ofNat 8 ∧ c ≠ Char.ofNat 127 ∧
    c ≠ '\t' ∧ c ≠ 'K' ∧ c ≠ 'S' ∧ c ∉ moveChars

instance (c : Char) : Decidable (plainInputChar c) := by
  unfold plainInputChar; infer_instance

/-- Modelled from the spec (§4.1): `adjust_viewport(visible_height)` as the
spec words it — recompute the offset by the scroll-down/scroll-up rule and
also return whether the offset changed. -/
def adjust_viewport_spec (e : Editor) (height : Int) : Editor × Bool :=
  let offset' :=
    if e.line + 1 - e.line_offset > height then e.line + 1 - height
    else if e.line - e.line_offset < 0 then e.line
    else e.line_offset
  ({ e with line_offset := offset' }, decide (offset' ≠ e.line_offset))

/-! ### Checked embedding

Every container access of the C++ code (`lines[line]`, `vector::insert`,
`vector::erase`, `string::insert`, `string::erase`) is guarded by the exact
in-range condition C++ requires; a violated guard yields `none`. -/

/-- Guard for reading `lines[line]`. -/
def lineInBounds (e : Editor) : Prop :=
  0 ≤ e.line ∧ e.line < (e.lines.length : Int)

instance (e : Editor) : Decidable (lineInBounds e) := by
  unfold lineInBounds; infer_instance

/-- Checked `Editor::new_line`: `lines.insert(lines.begin() + line, "")`
requires `0 ≤ line ≤ lines.size()`. -/
def new_lineChecked (e : Editor) : Option Editor :=
  if 0 ≤ e.line ∧ e.line ≤ (e.lines.length : Int) then some (new_line e) else none

/-- Checked `Editor::delete_line`: `lines.erase(lines.begin() + line)`
requires `0 ≤ line < lines.size()`. -/
def delete_lineChecked (e : Editor) : Option Editor :=
  if e.lines.length = 1 then some e
  else if lineInBounds e then some (delete_line e) else none

/-- Checked `Editor::backspace`: after `--column`,
`lines[line].erase(column, 1)` requires `lines[line]` in bounds and
`0 ≤ column ≤ lines[line].size()`. -/
def backspaceChecked (e : Editor) : Option Editor :=
  if e.column = 0 then some e
  else if lineInBounds e ∧ 0 ≤ e.column - 1 ∧ e.column - 1 ≤ lineLen e e.line then
    some (backspace e)
  else none

/-- Checked `Editor::insert`: `lines[line].insert(column, count, c)` requires
`lines[line]` in bounds and `0 ≤ column ≤ lines[line].size()`. -/
def insertChecked (e : Editor) (c : Char) (count : Nat) : Option Editor :=
  if lineInBounds e ∧ 0 ≤ e.column ∧ e.column ≤ lineLen e e.line then
    some (insert e c count)
  else none

/-- Checked `Editor::move`: each branch guards the `lines[...]` reads it
performs (`B`, `A`, `Q` read nothing). -/
def moveChecked (e : Editor) (c : Char) : Option Editor :=
  if c = 'B' then some (move e c)
  else if c = 'F' then
    if lineInBounds e then some (move e c) else none
  else if c = 'N' then
    if 0 ≤ min ((e.lines.length : Int) - 1) (e.line + 1) ∧
        min ((e.lines.length : Int) - 1) (e.line + 1) < (e.lines.length : Int) then
      some (move e c)
    else none
  else if c = 'P' then
    if 0 ≤ max 0 (e.line - 1) ∧ max 0 (e.line - 1) < (e.lines.length : Int) then
      some (move e c)
    else none
  else if c = 'A' then some (move e c)
  else if c = 'E' then
    if lineInBounds e then some (move e c) else none
  else if c = 'V' then
    if 0 ≤ min ((e.lines.length : Int) - 1) (e.line + 10) ∧
        min ((e.lines.length : Int) - 1) (e.line + 10) < (e.lines.length : Int) then
      some (move e c)
    else none
  else if c = 'C' then
    if 0 ≤ max 0 (e.line - 10) ∧ max 0 (e.line - 10) < (e.lines.length : Int) then
      some (move e c)
    else none
  else some (move e c)

/-- Checked `Editor::input`: same dispatch as `input`, with every container
access guarded. -/
def inputChecked (e : Editor) (c : Char) : Option Editor :=
  if c = '\n' then new_lineChecked { e with line := e.line + 1 }
  else if c = 'O' then new_lineChecked e
  else if c = Char.ofNat 8 ∨ c = Char.ofNat 127 then backspaceChecked e
  else if c = '\t' then insertChecked e ' ' 4
  else if c = 'K' then delete_lineChecked e
  else if c = 'S' then some e
  else if c ∈ moveChars then moveChecked e c
  else insertChecked e c 1

/-! ### Concrete states used by counterexamples and witnesses -/

/-- A one-line buffer `["ab"]` with the cursor between `'a'` and `'b'`. -/
def eAB : Editor :=
  { lines := [['a', 'b']], line := 0, column := 1, line_offset := 0, running := true }

/-- The buffer `["a","b","c"]` with the cursor at (0,0). -/
def eABC : Editor :=
  { lines := [['a'], ['b'], ['c']], line := 0, column := 0, line_offset := 0,
    running := true }

/-- A six-line buffer with the cursor on the last line, offset 0. -/
def eSix : Editor :=
  { lines := [[], [], [], [], [], []], line := 5, column := 0, line_offset := 0,
    running := true }

/-! ### Helper lemmas -/

theorem lineLen_nonneg (e : Editor) (i : Int) : 0 ≤ lineLen e i :=
  Int.natCast_nonneg _

theorem insertIdx_eq_take_cons_drop {α : Type} :
    ∀ (n : Nat) (x : α) (l : List α), n ≤ l.length →
      List.insertIdx n x l = l.take n ++ x :: l.drop n
  | 0, _, l, _ => by simp
  | n + 1, _, [], h => by simp at h
  | n + 1, x, a :: t, h => by
    simp [List.insertIdx_succ_cons,
      insertIdx_eq_take_cons_drop n x t (by simpa using h)]

theorem getD_set_self {α : Type} (d : α) :
    ∀ (l : List α) (i : Nat) (v : α), i < l.length → (l.set i v).getD i d = v
  | _ :: _, 0, _, _ => rfl
  | _ :: t, i + 1, v, h => getD_set_self d t i v (by simpa using h)
  | [], _, _, h => by simp at h

theorem set_getD_self {α : Type} (d : α) :
    ∀ (l : List α) (i : Nat), i < l.length → l.set i (l.getD i d) = l
  | _ :: _, 0, _ => rfl
  | a :: t, i + 1, h => by
    show a :: t.set i (t.getD i d) = a :: t
    rw [set_getD_self d t i (by simpa using h)]
  | [], _, h => by simp at h

theorem updateLine_length (ls : List (List Char)) (i : Nat)
    (f : List Char → List Char) : (updateLine ls i f).length = ls.length := by
  simp [updateLine]

theorem updateLine_getD (ls : List (List Char)) (i : Nat)
    (f : List Char → List Char) (h : i < ls.length) :
    (updateLine ls i f).getD i [] = f (ls.getD i []) :=
  getD_set_self [] ls i _ h

theorem insert_erase_roundtrip {α : Type} (c : α) :
    ∀ (m : Nat) (a : List α), m ≤ a.length →
      (a.take m ++ c :: a.drop m).take m ++ (a.take m ++ c :: a.drop m).drop (m + 1)
        = a
  | 0, a, _ => by simp
  | m + 1, [], h => by simp at h
  | m + 1, x :: t, h => by
    simpa using insert_erase_roundtrip c m t (by simpa using h)

/-! ### C1: the newline input -/

/-- C1 counterexample: in the buffer `["ab"]` with the cursor at column 1,
the newline input leaves `'a'` and `'b'` on the same line — the current line
is never split at the cursor column, so neither `"a"` nor `"b"` appears as a
line of the result. -/
theorem newline_no_split_counterexample :
    (input eAB '\n').lines = [['a', 'b'], []] ∧
      ['a'] ∉ (input eAB '\n').lines ∧ ['b'] ∉ (input eAB '\n').lines := by
  decide

/-- C1 amended: on a state satisfying the data-model invariants, the newline
input increments `cursor_line`, inserts a new empty line at the incremented
index (immediately after the original cursor line), and moves the cursor to
column 0 of that new empty line; the original line's content is not split. -/
theorem newline_inserts_empty_line (e : Editor) (h : Inv e) :
    (input e '\n').lines
        = e.lines.take (e.line.toNat + 1) ++ [] :: e.lines.drop (e.line.toNat + 1) ∧
      (input e '\n').line = e.line + 1 ∧ (input e '\n').column = 0 := by
  obtain ⟨h1, h2, h3, h4, h5⟩ := h
  have he : input e '\n' = new_line { e with line := e.line + 1 } := rfl
  have ht : (e.line + 1).toNat = e.line.toNat + 1 := by omega
  have hle : e.line.toNat + 1 ≤ e.lines.length := by omega
  rw [he]
  unfold new_line
  refine ⟨?_, rfl, rfl⟩
  simp only [ht]
  exact insertIdx_eq_take_cons_drop _ _ _ hle

theorem newline_inserts_empty_line_witness :
    Inv eABC ∧
      ((input eABC '\n').lines
          = eABC.lines.take (eABC.line.toNat + 1)
              ++ [] :: eABC.lines.drop (eABC.line.toNat + 1) ∧
        (input eABC '\n').line = eABC.line + 1 ∧ (input eABC '\n').column = 0) :=
  ⟨by decide, newline_inserts_empty_line eABC (by decide)⟩

/-! ### C2: the at-least-one-line invariant versus `load` -/

/-- C2: `Editor::load` on an empty file (`std::getline` never succeeds)
leaves `lines` empty, violating the documented invariant
`lines.length ≥ 1`; every later `lines[line]` access is then out of range. -/
theorem load_empty_file_breaks_invariant :
    (load initEditor []).lines = [] ∧ initEditor.lines.length = 1 := by
  constructor
  · simp [load, getlines]
  · rfl

/-! ### C3: `adjust_offset` and the claimed changed flag -/

/-- C3 counterexample: `Editor::adjust_offset` is declared `-> void`, so its
return value (modelled by `adjust_offset_ret`, constantly `()`) carries no
information; no reading of that return value as a boolean can equal "the
offset changed", which differs between the state `eSix` with height 1 (offset
changes) and `initEditor` with height 5 (offset unchanged). -/
theorem adjust_offset_returns_nothing_counterexample :
    ¬ ∃ f : Unit → Bool, ∀ (e : Editor) (h : Int),
        (f (adjust_offset_ret e h) = true ↔
          (adjust_offset e h).line_offset ≠ e.line_offset) := by
  rintro ⟨f, hf⟩
  have h1 : f () = true := (hf eSix 1).mpr (by decide)
  have h2 := (hf initEditor 5).mp h1
  exact h2 (by decide)

/-- C3 amended: `adjust_offset(height)` recomputes `viewport_offset` exactly
by the spec's rule — scroll down to `cursor_line + 1 - height` when
`cursor_line + 1 - viewport_offset > height`, else scroll up to `cursor_line`
when `cursor_line - viewport_offset < 0`, else leave the state unchanged —
but returns nothing: the state component of the spec-modelled
`adjust_viewport_spec` is implemented, the boolean is not. -/
theorem adjust_offset_implements_spec_rule (e : Editor) (height : Int) :
    adjust_offset e height = (adjust_viewport_spec e height).1 := by
  unfold adjust_offset adjust_viewport_spec
  split_ifs <;> rfl

/-! ### C5: line-kill -/

/-- C5: on a state satisfying the invariants with at least two lines, the
`'K'` input removes `lines[cursor_line]`, resets `cursor_column` to 0, and
decrements `cursor_line` exactly when the removed index was the last line,
leaving `cursor_line` a valid index; on a single-line buffer it is a no-op. -/
theorem line_kill_spec (e : Editor) (h : Inv e) :
    (2 ≤ e.lines.length →
        (input e 'K').lines
            = e.lines.take e.line.toNat ++ e.lines.drop (e.line.toNat + 1) ∧
          (input e 'K').column = 0 ∧
          (input e 'K').line
            = (if e.line = (e.lines.length : Int) - 1 then e.line - 1 else e.line) ∧
          0 ≤ (input e 'K').line ∧
          (input e 'K').line < ((input e 'K').lines.length : Int)) ∧
      (e.lines.length = 1 → input e 'K' = e) := by
  obtain ⟨h1, h2, h3, h4, h5⟩ := h
  have he : input e 'K' = delete_line e := rfl
  rw [he]
  unfold delete_line
  constructor
  · intro hlen
    rw [if_neg (by omega)]
    have herase : e.lines.eraseIdx e.line.toNat
        = e.lines.take e.line.toNat ++ e.lines.drop (e.line.toNat + 1) :=
      List.eraseIdx_eq_take_drop_succ _ _
    have hlen' : (e.lines.eraseIdx e.line.toNat).length = e.lines.length - 1 := by
      rw [List.length_eraseIdx, if_pos (by omega)]
    refine ⟨herase, rfl, ?_, ?_, ?_⟩
    · simp only [hlen']
      split_ifs <;> omega
    · simp only [hlen']
      split_ifs <;> omega
    · simp only [hlen']
      split_ifs <;> omega
  · intro hlen
    rw [if_pos hlen]

theorem line_kill_spec_witness :
    Inv eABC ∧ 2 ≤ eABC.lines.length ∧
      ((input eABC 'K').lines
          = eABC.lines.take eABC.line.toNat ++ eABC.lines.drop (eABC.line.toNat + 1) ∧
        (input eABC 'K').column = 0 ∧
        (input eABC 'K').line
          = (if eABC.line = (eABC.lines.length : Int) - 1 then eABC.line - 1
             else eABC.line) ∧
        0 ≤ (input eABC 'K').line ∧
        (input eABC 'K').line < ((input eABC 'K').lines.length : Int)) :=
  ⟨by decide, by decide, (line_kill_spec eABC (by decide)).1 (by decide)⟩

/-! ### C8: viewport offset bounds -/

/-- C8: on a state satisfying the full data-model invariants and any usable
(non-degenerate, `height ≥ 1`) visible height, `adjust_offset` keeps
`0 ≤ viewport_offset ≤ cursor_line`. -/
theorem adjust_offset_bounds (e : Editor) (height : Int) (h : FullInv e)
    (hh : 1 ≤ height) :
    0 ≤ (adjust_offset e height).line_offset ∧
      (adjust_offset e height).line_offset ≤ (adjust_offset e height).line := by
  obtain ⟨⟨h1, h2, h3, h4, h5⟩, h6, h7⟩ := h
  unfold adjust_offset
  split_ifs with hc1 hc2
  · exact ⟨show (0 : Int) ≤ e.line + 1 - height by omega,
      show e.line + 1 - height ≤ e.line by omega⟩
  · exact ⟨show (0 : Int) ≤ e.line by omega, show e.line ≤ e.line by omega⟩
  · exact ⟨by omega, by omega⟩

theorem adjust_offset_bounds_witness :
    FullInv eSix ∧ (1 : Int) ≤ 3 ∧
      (0 ≤ (adjust_offset eSix 3).line_offset ∧
        (adjust_offset eSix 3).line_offset ≤ (adjust_offset eSix 3).line) :=
  ⟨by decide, by decide, adjust_offset_bounds eSix 3 (by decide) (by decide)⟩

/-! ### C10: the open-line input -/

/-- C10: on a state satisfying the data-model invariants, the `'O'` input
inserts an empty line at index `cursor_line` (shifting the previous current
line and everything below it down by one), leaves `cursor_line` unchanged,
and resets `cursor_column` to 0. -/
theorem open_line_spec (e : Editor) (h : Inv e) :
    (input e 'O').lines
        = e.lines.take e.line.toNat ++ [] :: e.lines.drop e.line.toNat ∧
      (input e 'O').line = e.line ∧ (input e 'O').column = 0 := by
  obtain ⟨h1, h2, h3, h4, h5⟩ := h
  have he : input e 'O' = new_line e := rfl
  rw [he]
  unfold new_line
  exact ⟨insertIdx_eq_take_cons_drop _ _ _ (by omega), rfl, rfl⟩

theorem open_line_spec_witness :
    Inv eAB ∧
      ((input eAB 'O').lines
          = eAB.lines.take eAB.line.toNat ++ [] :: eAB.lines.drop eAB.line.toNat ∧
        (input eAB 'O').line = eAB.line ∧ (input eAB 'O').column = 0) :=
  ⟨by decide, open_line_spec eAB (by decide)⟩

/-! ### C4: movement commands preserve the cursor invariants -/

theorem move_preserves_inv (e : Editor) (c : Char) (h : Inv e) : Inv (move e c) := by
  obtain ⟨h1, h2, h3, h4, h5⟩ := h
  unfold lineLen at h5
  unfold Inv move lineLen
  split_ifs <;> (try simp only []) <;> omega

theorem input_eq_move_of_moveChar (e : Editor) (c : Char) (h : c ∈ moveChars) :
    input e c = move e c := by
  fin_cases h <;> rfl

theorem applyInputs_move_inv :
    ∀ (cs : List Char) (e : Editor), (∀ c ∈ cs, c ∈ moveChars) → Inv e →
      Inv (applyInputs e cs)
  | [], _, _, he => he
  | c :: cs, e, h, he => by
    have h1 : input e c = move e c :=
      input_eq_move_of_moveChar e c (h c (List.mem_cons_self c cs))
    show Inv (applyInputs (input e c) cs)
    exact applyInputs_move_inv cs (input e c)
      (fun x hx => h x (List.mem_cons_of_mem c hx))
      (h1 ▸ move_preserves_inv e c he)

/-- C4: from any state satisfying the data-model invariants, after applying
any prefix of a sequence of movement commands (`B F N P A E V C Q`) through
`Editor::input`, the invariants `0 ≤ cursor_line < lines.length` and
`0 ≤ cursor_column ≤ lines[cursor_line].length` still hold. -/
theorem movement_preserves_invariants (e : Editor) (cs : List Char) (n : Nat)
    (hm : ∀ c ∈ cs, c ∈ moveChars) (h : Inv e) :
    Inv (applyInputs e (cs.take n)) :=
  applyInputs_move_inv (cs.take n) e
    (fun c hc => hm c (List.take_subset n cs hc)) h

theorem movement_preserves_invariants_witness :
    Inv eAB ∧ Inv (applyInputs eAB (['N', 'F', 'V', 'P', 'E'].take 3)) :=
  ⟨by decide,
    movement_preserves_invariants eAB ['N', 'F', 'V', 'P', 'E'] 3
      (by decide) (by decide)⟩

/-! ### C6: insert then backspace round-trips the state -/

theorem updateLine_insert_erase (ls : List (List Char)) (i m : Nat) (c : Char)
    (hi : i < ls.length) (hm : m ≤ (ls.getD i []).length) :
    updateLine
        (updateLine ls i (fun l => l.take m ++ List.replicate 1 c ++ l.drop m)) i
        (fun l => l.take m ++ l.drop (m + 1))
      = ls := by
  unfold updateLine
  rw [getD_set_self [] ls i _ hi, List.set_set]
  have hr : ((ls.getD i []).take m ++ List.replicate 1 c ++ (ls.getD i []).drop m).take m
        ++ ((ls.getD i []).take m ++ List.replicate 1 c ++ (ls.getD i []).drop m).drop (m + 1)
      = ls.getD i [] := by
    have := insert_erase_roundtrip c m (ls.getD i []) hm
    simpa [List.replicate] using this
  rw [show ((fun l => l.take m ++ l.drop (m + 1))
      ((fun l => l.take m ++ List.replicate 1 c ++ l.drop m) (ls.getD i [])))
      = ls.getD i [] from hr]
  exact set_getD_self [] ls i hi

/-- C6: on a state satisfying the data-model invariants, inserting any
plain (non-command) character through `Editor::input` and then applying
backspace (byte 0x08) restores `lines`, `cursor_line` and `cursor_column`
exactly. -/
theorem insert_backspace_roundtrip (e : Editor) (c : Char) (h : Inv e)
    (hc : plainInputChar c) :
    (input (input e c) (Char.ofNat 8)).lines = e.lines ∧
      (input (input e c) (Char.ofNat 8)).line = e.line ∧
      (input (input e c) (Char.ofNat 8)).column = e.column := by
  obtain ⟨h1, h2, h3, h4, h5⟩ := h
  unfold lineLen at h5
  obtain ⟨hn, hO, h8, h127, ht, hK, hS, hmv⟩ := hc
  have e1 : input e c = insert e c 1 := by
    unfold input
    rw [if_neg hn, if_neg hO, if_neg (by simp [h8, h127]), if_neg ht, if_neg hK,
      if_neg hS, if_neg hmv]
  have e2 : input (insert e c 1) (Char.ofNat 8) = backspace (insert e c 1) := by
    unfold input
    rw [if_neg (by decide), if_neg (by decide), if_pos (Or.inl rfl)]
  rw [e1, e2]
  unfold backspace
  rw [if_neg (show ¬(insert e c 1).column = 0 from
    show ¬e.column + ((1 : Nat) : Int) = 0 from by omega)]
  refine ⟨?_, rfl, ?_⟩
  · show updateLine (updateLine e.lines e.line.toNat
        (fun l => l.take e.column.toNat ++ List.replicate 1 c ++ l.drop e.column.toNat))
        e.line.toNat
        (fun l => l.take ((e.column + ((1 : Nat) : Int)) - 1).toNat
          ++ l.drop (((e.column + ((1 : Nat) : Int)) - 1).toNat + 1))
      = e.lines
    have hcol : ((e.column + ((1 : Nat) : Int)) - 1).toNat = e.column.toNat := by omega
    rw [hcol]
    exact updateLine_insert_erase e.lines e.line.toNat e.column.toNat c
      (by omega) (by omega)
  · show (e.column + ((1 : Nat) : Int)) - 1 = e.column
    omega

theorem insert_backspace_roundtrip_witness :
    Inv eAB ∧ plainInputChar 'x' ∧
      ((input (input eAB 'x') (Char.ofNat 8)).lines = eAB.lines ∧
        (input (input eAB 'x') (Char.ofNat 8)).line = eAB.line ∧
        (input (input eAB 'x') (Char.ofNat 8)).column = eAB.column) :=
  ⟨by decide, by decide, insert_backspace_roundtrip eAB 'x' (by decide) (by decide)⟩

/-! ### C7: save followed by load reproduces the line sequence -/

theorem takeWhile_dropWhile_newline (S : List Char) :
    ∀ (l : List Char), '\n' ∉ l →
      (l ++ '\n' :: S).takeWhile (· ≠ '\n') = l ∧
        (l ++ '\n' :: S).dropWhile (· ≠ '\n') = '\n' :: S
  | [], _ => by
    constructor <;> simp [List.takeWhile_cons, List.dropWhile_cons]
  | a :: t, h => by
    have ha : a ≠ '\n' := fun hEq => h (hEq ▸ List.mem_cons_self a t)
    obtain ⟨iht1, iht2⟩ :=
      takeWhile_dropWhile_newline S t (fun hm => h (List.mem_cons_of_mem a hm))
    constructor
    · show List.takeWhile (· ≠ '\n') ((a :: t) ++ '\n' :: S) = a :: t
      rw [List.cons_append, List.takeWhile_cons_of_pos (by simpa using ha), iht1]
    · show List.dropWhile (· ≠ '\n') ((a :: t) ++ '\n' :: S) = '\n' :: S
      rw [List.cons_append, List.dropWhile_cons_of_pos (by simpa using ha)]
      exact iht2

theorem getlines_serializeLines :
    ∀ (L : List (List Char)), (∀ l ∈ L, '\n' ∉ l) → getlines (serializeLines L) = L
  | [], _ => by simp [serializeLines, getlines]
  | l :: L', h => by
    have hl : '\n' ∉ l := h l (List.mem_cons_self l L')
    have ihL := getlines_serializeLines L' (fun x hx => h x (List.mem_cons_of_mem l hx))
    have hser : serializeLines (l :: L') = l ++ '\n' :: serializeLines L' := rfl
    have hne : l ++ '\n' :: serializeLines L' ≠ [] := by simp
    have hsplit := takeWhile_dropWhile_newline (serializeLines L') l hl
    rw [hser, getlines, dif_neg hne, hsplit.1, hsplit.2]
    simp [ihL]

/-- C7: the byte stream `Editor::save` writes (each line followed by a
newline), read back by the `std::getline` loop of `Editor::load`, reproduces
the exact ordered line sequence, for every buffer whose lines contain no
newline character (no editor operation ever puts a `'\n'` inside a line). -/
theorem save_load_roundtrip (e : Editor) (h : ∀ l ∈ e.lines, '\n' ∉ l) :
    (load e (serializeLines e.lines)).lines = e.lines := by
  unfold load
  exact getlines_serializeLines e.lines h

theorem save_load_roundtrip_witness :
    (load eABC (serializeLines eABC.lines)).lines = eABC.lines :=
  save_load_roundtrip eABC (by decide)

/-! ### C9: all container accesses of `Editor::input` are in bounds -/

theorem new_lineChecked_eq_some (e : Editor)
    (h : 0 ≤ e.line ∧ e.line ≤ (e.lines.length : Int)) :
    new_lineChecked e = some (new_line e) := by
  unfold new_lineChecked
  rw [if_pos h]

theorem delete_lineChecked_eq_some (e : Editor) (h2 : 0 ≤ e.line)
    (h3 : e.line < (e.lines.length : Int)) :
    delete_lineChecked e = some (delete_line e) := by
  unfold delete_lineChecked delete_line
  split_ifs with d1 d2
  · rfl
  · rfl
  · exact absurd ⟨h2, h3⟩ d2

theorem backspaceChecked_eq_some (e : Editor) (h2 : 0 ≤ e.line)
    (h3 : e.line < (e.lines.length : Int)) (h4 : 0 ≤ e.column)
    (h5 : e.column ≤ lineLen e e.line) :
    backspaceChecked e = some (backspace e) := by
  unfold backspaceChecked backspace
  split_ifs with b1 b2
  · rfl
  · rfl
  · exact absurd ⟨⟨h2, h3⟩, by omega, by omega⟩ b2

theorem insertChecked_eq_some (e : Editor) (c : Char) (count : Nat)
    (h2 : 0 ≤ e.line) (h3 : e.line < (e.lines.length : Int)) (h4 : 0 ≤ e.column)
    (h5 : e.column ≤ lineLen e e.line) :
    insertChecked e c count = some (insert e c count) := by
  unfold insertChecked
  rw [if_pos ⟨⟨h2, h3⟩, h4, h5⟩]

theorem moveChecked_eq_some (e : Editor) (c : Char) (h1 : 0 < e.lines.length)
    (h2 : 0 ≤ e.line) (h3 : e.line < (e.lines.length : Int)) :
    moveChecked e c = some (move e c) := by
  unfold moveChecked
  split_ifs <;>
    first
      | rfl
      | (exfalso; simp only [lineInBounds] at *; omega)

/-- C9: on a state satisfying the data-model invariants, every container
access `Editor::input` performs (every `lines[line]` read, every
`vector::insert`/`erase` position and every `string::insert`/`erase`
position) is in range: the checked embedding, which returns `none` on any
out-of-range access, returns exactly the total embedding's result. -/
theorem input_accesses_in_bounds (e : Editor) (c : Char) (h : Inv e) :
    inputChecked e c = some (input e c) := by
  obtain ⟨h1, h2, h3, h4, h5⟩ := h
  unfold inputChecked input
  split_ifs with hc1 hc2 hc3 hc4 hc5 hc6 hc7
  · exact new_lineChecked_eq_some _
      ⟨show (0 : Int) ≤ e.line + 1 from by omega,
        show e.line + 1 ≤ (e.lines.length : Int) from by omega⟩
  · exact new_lineChecked_eq_some _ ⟨h2, by omega⟩
  · exact backspaceChecked_eq_some _ h2 h3 h4 h5
  · exact insertChecked_eq_some _ _ _ h2 h3 h4 h5
  · exact delete_lineChecked_eq_some _ h2 h3
  · rfl
  · exact moveChecked_eq_some _ _ h1 h2 h3
  · exact insertChecked_eq_some _ _ _ h2 h3 h4 h5

theorem input_accesses_in_bounds_witness :
    Inv eABC ∧ inputChecked eABC '\t' = some (input eABC '\t') :=
  ⟨by decide, input_accesses_in_bounds eABC '\t' (by decide)⟩

end Epp
